import Mathlib

/-!
Verification development for the finance-app transaction categorization core.

The definitions below are a shallow embedding of the Python sources:
  * backend/ml_categorizer.py   (MLCategorizer: preprocess_text, train,
    predict, save_model, load_model; module level ml_categorize)
  * backend/categorizer.py      (categorize_transaction,
    rule_based_categorize, classifier_predict)
  * backend/api/ml_training.py  (model_status, predict_category endpoints)

Python strings are Lean Strings; machine floats are modelled as rationals;
fallible Python code (try/except) is modelled with Except and an explicit
catch.  Third-party scikit-learn objects (the fitted vectorizer and
classifier) are modelled as records of the data they were fitted on, with
their numeric behaviour (transform, predict_proba, train_test_split) taken
as parameters of the embedding, since that library is outside this
repository.  The fixed regular expressions inside preprocess_text are
transcribed into a small executable regex abstract syntax with Python
re.sub search-and-replace semantics (leftmost match, greedy quantifiers,
left-biased alternation).
-/

/-! ## Python string helpers -/

/-- Python's notion of whitespace for str.strip, str.split and the regex
class backslash-s (ASCII part). -/
def isPySpace (c : Char) : Bool :=
  c = ' ' || c = '\t' || c = '\n' || c = '\r' || c = '\x0b' || c = '\x0c'

/-- str.lower (ASCII). -/
def pyLower (s : String) : String := String.mk (s.toList.map Char.toLower)

def pyStripList (l : List Char) : List Char :=
  ((l.dropWhile isPySpace).reverse.dropWhile isPySpace).reverse

/-- str.strip() with no argument: remove leading and trailing whitespace. -/
def pyStrip (s : String) : String := String.mk (pyStripList s.toList)

/-- str.split() with no argument: the maximal runs of non-whitespace. -/
def pyWords : List Char → List Char → List (List Char)
  | [], acc => if acc = [] then [] else [acc.reverse]
  | c :: t, acc =>
    if isPySpace c then
      if acc = [] then pyWords t [] else acc.reverse :: pyWords t []
    else pyWords t (c :: acc)

/-- ' '.join(words). -/
def joinSpace (ws : List (List Char)) : List Char := List.intercalate [' '] ws

/-! ## A small regex engine for the fixed patterns of preprocess_text

Character classes and the regex abstract syntax cover exactly the
constructs those patterns use.  Repetition operators apply to a single
character class, which every fixed pattern satisfies; this keeps the
backtracking matcher structurally terminating. -/

/-- The character classes occurring in preprocess_text's patterns. -/
inductive CC where
  | digit                -- backslash-d
  | space                -- backslash-s
  | nonspace             -- backslash-S
  | dashSpace            -- the class [-s] (dash or whitespace)
  | notRparen            -- the class [^)]
  | lower                -- the class [a-z]
  | dot                  -- . (any char except newline)
  | chr (c : Char)       -- a single literal character
  | nonAlnumSpace        -- the class [^a-z0-9s] used for punctuation removal
  deriving DecidableEq

/-- Word characters for Python's word-boundary assertion (ASCII). -/
def isWordChar (c : Char) : Bool := c.isAlpha || c.isDigit || c = '_'

def ccMatch : CC → Char → Bool
  | .digit, c => c.isDigit
  | .space, c => isPySpace c
  | .nonspace, c => !isPySpace c
  | .dashSpace, c => c = '-' || isPySpace c
  | .notRparen, c => c ≠ ')'
  | .lower, c => 'a' ≤ c && c ≤ 'z'
  | .dot, c => c ≠ '\n'
  | .chr a, c => c = a
  | .nonAlnumSpace, c => !(('a' ≤ c && c ≤ 'z') || c.isDigit || isPySpace c)

/-- Regex abstract syntax: literals, classes, greedy quantifiers over a
class, alternation, sequencing, the start/end anchors and the word
boundary. -/
inductive Re where
  | eps
  | str (s : List Char)
  | cls (c : CC)
  | opt (c : CC)
  | star (c : CC)
  | plus (c : CC)
  | rep (c : CC) (lo : Nat) (hi : Option Nat)
  | alt (a b : Re)
  | seq (a b : Re)
  | bos
  | eos
  | wordB

/-- Consume a literal string; the first component of a matcher state is
the character just before the current position (none at the very start
of the subject), kept for the anchors and word boundaries. -/
def consumeStr : List Char → Option Char → List Char → Option (Option Char × List Char)
  | [], p, s => some (p, s)
  | _ :: _, _, [] => none
  | c :: cs, _, x :: xs => if x = c then consumeStr cs (some x) xs else none

/-- All the ways a greedy unbounded class repetition can stop, longest
run first (Python's backtracking preference order). -/
def runSplits (c : CC) : Option Char → List Char → List (Option Char × List Char)
  | p, [] => [(p, [])]
  | p, x :: xs =>
    if ccMatch c x then runSplits c (some x) xs ++ [(p, x :: xs)]
    else [(p, x :: xs)]

/-- Greedy class repetition bounded by a remaining count. -/
def runSplitsUpTo (c : CC) : Nat → Option Char → List Char → List (Option Char × List Char)
  | 0, p, s => [(p, s)]
  | _ + 1, p, [] => [(p, [])]
  | n + 1, p, x :: xs =>
    if ccMatch c x then runSplitsUpTo c n (some x) xs ++ [(p, x :: xs)]
    else [(p, x :: xs)]

/-- Consume exactly n characters of a class. -/
def consumeExact (c : CC) : Nat → Option Char → List Char → Option (Option Char × List Char)
  | 0, p, s => some (p, s)
  | _ + 1, _, [] => none
  | n + 1, _, x :: xs => if ccMatch c x then consumeExact c n (some x) xs else none

/-- The backtracking matcher: all matches of a regex at the current
position, as (previous character, remaining input) pairs, in Python's
preference order (greedy quantifiers, left-biased alternation).  The head
of the list is the match Python's engine produces. -/
def reMatch : Re → Option Char → List Char → List (Option Char × List Char)
  | .eps, p, s => [(p, s)]
  | .str l, p, s =>
    match consumeStr l p s with
    | some r => [r]
    | none => []
  | .cls c, _, s =>
    match s with
    | [] => []
    | x :: xs => if ccMatch c x then [(some x, xs)] else []
  | .opt c, p, s =>
    (match s with
     | [] => []
     | x :: xs => if ccMatch c x then [(some x, xs)] else []) ++ [(p, s)]
  | .star c, p, s => runSplits c p s
  | .plus c, _, s =>
    match s with
    | [] => []
    | x :: xs => if ccMatch c x then runSplits c (some x) xs else []
  | .rep c lo hi, p, s =>
    match consumeExact c lo p s with
    | none => []
    | some r =>
      match hi with
      | none => runSplits c r.1 r.2
      | some h => runSplitsUpTo c (h - lo) r.1 r.2
  | .alt a b, p, s => reMatch a p s ++ reMatch b p s
  | .seq a b, p, s => (reMatch a p s).flatMap (fun r => reMatch b r.1 r.2)
  | .bos, p, s => if p = none then [(p, s)] else []
  | .eos, p, s => if s = [] || s = ['\n'] then [(p, s)] else []
  | .wordB, p, s =>
    let before := match p with | none => false | some c => isWordChar c
    let after := match s with | [] => false | x :: _ => isWordChar x
    if before ≠ after then [(p, s)] else []

/-- One pass of re.sub: scan left to right, at each position take the
engine's preferred match if any, emit the replacement and continue after
the match (copying one character on a zero-width match, as Python does).
Fuel bounds the recursion; subAll supplies enough for the whole input. -/
def subGo (r : Re) (repl : List Char) : Nat → Option Char → List Char → List Char
  | 0, _, s => s
  | fuel + 1, p, s =>
    match reMatch r p s with
    | m :: _ =>
      if m.2.length = s.length then
        match s with
        | [] => repl
        | x :: xs => repl ++ x :: subGo r repl fuel (some x) xs
      else repl ++ subGo r repl fuel m.1 m.2
    | [] =>
      match s with
      | [] => []
      | x :: xs => x :: subGo r repl fuel (some x) xs

/-- re.sub(pattern, repl, s): replace every non-overlapping match. -/
def subAll (r : Re) (repl : List Char) (s : List Char) : List Char :=
  subGo r repl (s.length + 1) none s

/-! ## The fixed patterns of MLCategorizer.preprocess_text -/

def seqL : List Re → Re := fun l => l.foldr Re.seq Re.eps

def strR (s : String) : Re := Re.str s.toList

/-- The transaction-type patterns stripped from the start of the string
(prefixes_to_remove, applied in order with empty replacement). -/
def prefixPatterns : List Re := [
  seqL [Re.bos, strR "withdrawal", Re.star .dashSpace, Re.opt (.chr '@'), Re.star .space],
  seqL [Re.bos, strR "deposit", Re.star .dashSpace, Re.opt (.chr '@'), Re.star .space],
  seqL [Re.bos, strR "withdrawal-ach-a-", Re.star .nonspace, Re.star .space],
  seqL [Re.bos, strR "deposit-ach-a-", Re.star .nonspace, Re.star .space],
  seqL [Re.bos, strR "withdrawal-transfer-", Re.star .nonspace, Re.star .space],
  seqL [Re.bos, strR "web"]]

/-- The street-suffix alternation of the address pattern. -/
def streetSuffix : Re :=
  Re.alt (Re.seq (strR "av") (Re.opt (.chr 'e')))
    (Re.alt (strR "st")
      (Re.alt (strR "rd")
        (Re.alt (strR "blvd")
          (Re.alt (strR "dr") (strR "way")))))

/-- The noise patterns (noise_patterns, applied in order with a single
space as replacement). -/
def noisePatterns : List Re := [
  Re.rep .digit 6 none,
  seqL [strR "#", Re.plus .digit],
  seqL [strR "(", Re.plus .digit, strR ")"],
  seqL [strR "(", Re.star .notRparen, strR ")"],
  seqL [strR "trace", Re.star .space, Re.opt (.chr '#'), Re.star .space, Re.plus .digit],
  seqL [strR "eff", Re.opt (.chr '.'), Re.star .space, strR "date", Re.star .dot],
  seqL [Re.rep .digit 1 (some 2), strR "/", Re.rep .digit 1 (some 2), strR "/",
        Re.rep .digit 2 (some 4)],
  seqL [Re.rep .digit 3 (some 3), Re.opt .dashSpace, Re.rep .digit 3 (some 3),
        Re.opt .dashSpace, Re.rep .digit 4 (some 4)],
  seqL [Re.wordB, Re.rep .lower 2 (some 2), Re.plus .space, strR "us", Re.wordB],
  seqL [Re.wordB, strR "us", Re.wordB, Re.eos],
  seqL [Re.wordB, strR "ca", Re.wordB, Re.eos],
  seqL [strR "online", Re.star .space, strR "access"],
  seqL [strR "transfer", Re.star .space, Re.alt (strR "std") (strR "dts")],
  seqL [strR "from", Re.plus .space, strR "share", Re.plus .space, Re.plus .digit],
  seqL [strR "to", Re.plus .space, strR "share", Re.plus .space, Re.plus .digit],
  seqL [strR "item", Re.star .space, Re.opt (.chr '#'), Re.plus .digit],
  seqL [strR "ro", Re.star .space, Re.plus .digit],
  seqL [Re.plus .digit, Re.star .space, Re.cls .lower, Re.plus .space, Re.plus .lower,
        Re.plus .space, streetSuffix]]

/-- MLCategorizer.preprocess_text: lower-case, strip transaction-type
prefixes, blank out the noise patterns, replace remaining punctuation
with spaces, collapse whitespace and trim.  (The re.IGNORECASE flag on
the substitutions is inert because the text is lower-cased first.) -/
def preprocess_text (text : String) : String :=
  if text = "" then ""
  else
    let t := (pyLower text).toList
    let t := prefixPatterns.foldl (fun s r => subAll r [] s) t
    let t := noisePatterns.foldl (fun s r => subAll r [' '] s) t
    let t := subAll (Re.cls .nonAlnumSpace) [' '] t
    pyStrip (String.mk (joinSpace (pyWords t [])))

/-! ## Rule engine (backend/categorizer.py)

A CategorizationRule row: pattern, match_type (a free-form string column;
the engine recognises "exact", "contains" and "regex", anything else never
matches), target category id and an integer priority.  User-authored
regex patterns are arbitrary Python regexes, so regex compilation is a
parameter of the embedding: compile gives some matcher for a well-formed
pattern and none for a malformed one (re.error), which the source skips
with continue. -/

structure Rule where
  pattern : String
  match_type : String
  category_id : Nat
  priority : Int
  deriving DecidableEq

abbrev ReCompile := String → Option (String → Bool)

/-- The body of rule_based_categorize's loop for one rule: the pattern is
lower-cased, then compared according to match_type; a malformed regex
(compile gives none) behaves like no match, as the source's continue. -/
def evalRule (compile : ReCompile) (text : String) (r : Rule) : Bool :=
  let pattern := pyLower r.pattern
  if r.match_type = "exact" then pattern = text
  else if r.match_type = "contains" then decide (pattern.toList <:+: text.toList)
  else if r.match_type = "regex" then
    match compile pattern with
    | none => false
    | some search => search text
  else false

/-- rule_based_categorize's loop over the (already ordered) rule rows:
the first matching rule's category id, none when no rule matches. -/
def rule_based_categorize (compile : ReCompile) (text : String) : List Rule → Option Nat
  | [] => none
  | r :: rs =>
    if evalRule compile text r then some r.category_id
    else rule_based_categorize compile text rs

/-- The storage query behind the engine:
CategorizationRule.query.order_by(priority.desc()) — a stable sort of the
table rows by descending priority (insertion order kept on ties). -/
def insertByPriority (r : Rule) : List Rule → List Rule
  | [] => [r]
  | x :: xs =>
    if r.priority > x.priority then r :: x :: xs
    else x :: insertByPriority r xs

def listCategorizationRules (table : List Rule) : List Rule :=
  table.foldr insertByPriority []

/-! ## Categorization orchestrator (backend/categorizer.py)

categorize_transaction composes the rule engine with the classifier stub
classifier_predict and the Uncategorized fallback.  Python truthiness on
the intermediate category ids is kept: None and 0 are falsy. -/

/-- classifier_predict: the ML classifier stub.  Its body is
exactly | return None | — the documented scikit-learn integration is a
comment in the source, not code. -/
def classifier_predict (_text : String) : Option Nat := none

def truthyOpt : Option Nat → Bool
  | none => false
  | some n => n ≠ 0

def truthyStr : Option String → Bool
  | none => false
  | some s => s ≠ ""

/-- The database environment categorize_transaction reads: the rule table
(in insertion order) and the id of the category named Uncategorized when
one exists. -/
structure CatEnv where
  ruleTable : List Rule
  uncategorized : Option Nat
  deriving DecidableEq

/-- The rule-matching phase of categorize_transaction (its first three
guarded steps): rules on the lowered/stripped merchant text, then on the
description text, then on their concatenation, each step's result kept
when truthy.  A step on an empty text variant is skipped. -/
def rulePhase (compile : ReCompile) (env : CatEnv)
    (merchant description : Option String) : Option Nat :=
  let primary := pyStrip (pyLower (merchant.getD ""))
  let secondary := pyStrip (pyLower (description.getD ""))
  let rules := listCategorizationRules env.ruleTable
  let step1 := if primary ≠ "" then rule_based_categorize compile primary rules else none
  if truthyOpt step1 then step1 else
  let step2 := if secondary ≠ "" then rule_based_categorize compile secondary rules else none
  if truthyOpt step2 then step2 else
  let combined := pyStrip (primary ++ " " ++ secondary)
  if combined ≠ "" then rule_based_categorize compile combined rules else none

/-- categorize_transaction: the rule phase above; if it yields nothing
truthy, the classifier stub on the concatenation (unconditionally, as in
the source); finally the Uncategorized category if one exists. -/
def categorize_transaction (compile : ReCompile) (env : CatEnv)
    (merchant description : Option String) : Option Nat :=
  let rp := rulePhase compile env merchant description
  if truthyOpt rp then rp else
  let combined := pyStrip (pyStrip (pyLower (merchant.getD "")) ++ " " ++
    pyStrip (pyLower (description.getD "")))
  let step4 := classifier_predict combined
  if truthyOpt step4 then step4 else
  env.uncategorized

/-- The orchestrator stripped of the classifier step: the rule phase,
then directly the Uncategorized fallback.  Used to state that the
classifier stub contributes nothing. -/
def categorize_rules_only (compile : ReCompile) (env : CatEnv)
    (merchant description : Option String) : Option Nat :=
  let rp := rulePhase compile env merchant description
  if truthyOpt rp then rp else
  env.uncategorized

/-- Modelled from the spec's words (section 4.4 decision order): rule
matching on the merchant text, the description text and the
concatenation, then the classifier model consulted on the same three
variants, first success winning, with the Uncategorized fallback last.
Stated over an arbitrary model so that it can be compared with the
source's categorize_transaction. -/
def categorize_claimed (compile : ReCompile) (env : CatEnv)
    (model : String → Option Nat) (merchant description : Option String) : Option Nat :=
  let rp := rulePhase compile env merchant description
  if truthyOpt rp then rp else
  let primary := pyStrip (pyLower (merchant.getD ""))
  let secondary := pyStrip (pyLower (description.getD ""))
  let combined := pyStrip (primary ++ " " ++ secondary)
  let step4 := if primary ≠ "" then model primary else none
  if truthyOpt step4 then step4 else
  let step5 := if secondary ≠ "" then model secondary else none
  if truthyOpt step5 then step5 else
  let step6 := if combined ≠ "" then model combined else none
  if truthyOpt step6 then step6 else
  env.uncategorized

/-! ## ML categorizer state (backend/ml_categorizer.py)

The fitted scikit-learn objects are modelled as records of the data they
were fitted on (the fit is deterministic given the fixed hyperparameters
and seed); their numeric behaviour — TfidfVectorizer.transform,
RandomForestClassifier.predict_proba and train_test_split — lives outside
this repository and is a parameter (SkEnv) of the embedding. -/

/-- category_mapping: classifier label index to category id. -/
abbrev LabelMap := List (Nat × Nat)

structure Vectorizer where
  fitCorpus : List String
  deriving DecidableEq

structure Classifier where
  fitX : List String
  fitY : List Nat
  deriving DecidableEq

/-- The scikit-learn behaviour the embedding is parametric in. -/
structure SkEnv where
  transform : Vectorizer → String → List Rat
  proba : Classifier → List Rat → List Rat
  split : List String → List Nat → (List String × List String × List Nat × List Nat)

/-- The in-memory fields of the MLCategorizer instance. -/
structure MLState where
  vectorizer : Option Vectorizer
  classifier : Option Classifier
  category_mapping : Option LabelMap
  reverse_mapping : Option LabelMap
  deriving DecidableEq

/-- The fields right after __init__ sets them all to None. -/
def initMLState : MLState := ⟨none, none, none, none⟩

/-- The three persisted artifacts in the model directory (none = absent). -/
structure Disk where
  vectorizer_pkl : Option Vectorizer
  classifier_pkl : Option Classifier
  category_mapping_pkl : Option LabelMap
  deriving DecidableEq

/-- Whether each pickle.dump call in save_model succeeds (a failing write
raises and is caught by save_model's except clause). -/
structure WriteOks where
  vectorizerOk : Bool
  classifierOk : Bool
  mappingOk : Bool
  deriving DecidableEq

def allWritesOk : WriteOks := ⟨true, true, true⟩

/-- MLCategorizer.save_model: nothing to save without a vectorizer and
classifier; otherwise the three artifacts are written in order, a failing
write leaves the earlier ones written and yields False. -/
def save_model (wok : WriteOks) (st : MLState) (disk : Disk) : Bool × Disk :=
  if st.vectorizer.isNone || st.classifier.isNone then (false, disk)
  else if wok.vectorizerOk then
    let d1 := { disk with vectorizer_pkl := st.vectorizer }
    if wok.classifierOk then
      let d2 := { d1 with classifier_pkl := st.classifier }
      if wok.mappingOk then (true, { d2 with category_mapping_pkl := st.category_mapping })
      else (false, d2)
    else (false, d1)
  else (false, disk)

/-- Whether each pickle.load call in load_model succeeds (a failing read
raises and is caught by load_model's except clause). -/
structure LoadEnv where
  vectorizerReadOk : Bool
  classifierReadOk : Bool
  mappingReadOk : Bool
  deriving DecidableEq

/-- The reverse mapping comprehension: category id back to label index. -/
def reverse_of (m : LabelMap) : LabelMap := m.map (fun p => (p.2, p.1))

/-- MLCategorizer.load_model: all three files must exist, then they are
deserialized in order into the instance fields; any failure returns False
(caught exception), leaving the fields assigned so far. -/
def load_model (lenv : LoadEnv) (disk : Disk) (st : MLState) : Bool × MLState :=
  match disk.vectorizer_pkl, disk.classifier_pkl, disk.category_mapping_pkl with
  | some v, some c, some m =>
    if lenv.vectorizerReadOk then
      let st1 := { st with vectorizer := some v }
      if lenv.classifierReadOk then
        let st2 := { st1 with classifier := some c }
        if lenv.mappingReadOk then
          let st3 := { st2 with category_mapping := some m }
          (true, { st3 with reverse_mapping := some (reverse_of m) })
        else (false, st2)
      else (false, st1)
    else (false, st)
  | _, _, _ => (false, st)

/-! ## Prediction -/

/-- numpy argmax: the first index of the maximum; raises on an empty
array, hence none here. -/
def argmaxGo : Rat → Nat → Nat → List Rat → Nat
  | _, best, _, [] => best
  | bv, best, i, x :: xs =>
    if bv < x then argmaxGo x i (i + 1) xs else argmaxGo bv best (i + 1) xs

def argmaxIdx : List Rat → Option Nat
  | [] => none
  | x :: xs => some (argmaxGo x 0 1 xs)

/-- Python dict subscript as a lookup (none = KeyError). -/
def dictGet (m : LabelMap) (k : Nat) : Option Nat :=
  (m.find? (fun p => p.1 == k)).map (·.2)

/-- The try-block of MLCategorizer.predict: vectorize, take the
probability distribution, pick the top class, apply the threshold, map
the label index back to a category id.  error marks the raising paths the
except clause catches (empty probability array, subscripting a missing
mapping, KeyError). -/
def predict_body (env : SkEnv) (st : MLState) (processed : String) (thr : Rat) :
    Except Unit (Option Nat × Rat) :=
  match st.vectorizer, st.classifier with
  | some v, some c =>
    let probabilities := env.proba c (env.transform v processed)
    match argmaxIdx probabilities with
    | none => .error ()
    | some idx =>
      let confidence := probabilities.getD idx 0
      if confidence < thr then .ok (none, 0)
      else
        match st.category_mapping with
        | none => .error ()
        | some m =>
          match dictGet m idx with
          | none => .error ()
          | some cid => .ok (some cid, confidence)
  | _, _ => .error ()

/-- MLCategorizer.predict: (none, 0) without a loaded model, on an
empty preprocessed text, below the threshold, or on any caught error. -/
def predict (env : SkEnv) (st : MLState) (text : String) (thr : Rat) : Option Nat × Rat :=
  if st.vectorizer.isNone || st.classifier.isNone then (none, 0)
  else
    let processed := preprocess_text text
    if processed = "" then (none, 0)
    else
      match predict_body env st processed thr with
      | .ok r => r
      | .error _ => (none, 0)

/-- A rational given directly in lowest terms.  The kernel cannot reduce
rational division (Nat.gcd is defined by well-founded recursion), so the
fixed literal thresholds below are written in this normal form; theorems
state their equality with the source's decimal literals. -/
def ratNF (n : Int) (d : Nat) (h1 : d ≠ 0) (h2 : n.natAbs.Coprime d) : Rat :=
  ⟨n, d, h1, h2⟩

/-- The default confidence_threshold of MLCategorizer.predict and of
ml_categorize ("Lowered default threshold to 0.15 for more matches"):
0.15 = 3/20. -/
def predict_default_threshold : Rat := ratNF 3 20 (by norm_num) (by norm_num)

/-! ## Training -/

def countLabel (labels : List Nat) (l : Nat) : Nat := (labels.filter (· == l)).length

/-- The filtering step of train: keep examples whose label reaches the
minimum per-category sample count and whose text is not blank. -/
def filteredExamples (texts : List String) (labels : List Nat) (min_samples : Nat) :
    List (String × Nat) :=
  (texts.zip labels).filter
    (fun p => decide (min_samples ≤ countLabel labels p.2) && decide (pyStrip p.1 ≠ ""))

def insertNat (n : Nat) : List Nat → List Nat
  | [] => [n]
  | x :: xs => if n ≤ x then n :: x :: xs else x :: insertNat n xs

/-- sorted(list(set(labels))). -/
def sortedUnique (labels : List Nat) : List Nat := labels.dedup.foldr insertNat []

def min_samples_per_category_default : Nat := 2

structure TrainResult where
  success : Bool
  error : Option String
  accuracy : Option Rat
  samples : Option Nat
  categories : Option Nat
  deriving DecidableEq

/-- One run of MLCategorizer.train on already assembled training data
(texts, labels = self.get_training_data()): the returned result, the
final in-memory state, the final disk, and the trace of in-memory states
a concurrent reader could observe — the state before the run and after
each assignment to an instance field, in program order.  The held-out
evaluation models classifier.predict as the argmax of predict_proba;
the per-class classification_report is not modelled (no stated property
mentions it).  Note the result of save_model is discarded, exactly as in
the source. -/
def train (env : SkEnv) (wok : WriteOks) (st0 : MLState) (disk0 : Disk)
    (texts : List String) (labels : List Nat) (min_samples_per_category : Nat) :
    TrainResult × MLState × Disk × List MLState :=
  if texts.length < 10 then
    (⟨false, some "Insufficient training data. Need at least 10 samples.", none, none, none⟩,
     st0, disk0, [st0])
  else
    let filtered := filteredExamples texts labels min_samples_per_category
    if filtered.length < 10 then
      (⟨false, some "Insufficient samples per category.", none, none, none⟩,
       st0, disk0, [st0])
    else
      let filtered_texts := filtered.map (·.1)
      let filtered_labels := filtered.map (·.2)
      let unique_labels := sortedUnique filtered_labels
      let newMapping : LabelMap := unique_labels.enum
      let newReverse := reverse_of newMapping
      let st1 := { st0 with category_mapping := some newMapping }
      let st2 := { st1 with reverse_mapping := some newReverse }
      let y := filtered_labels.map (fun lab => (dictGet newReverse lab).getD 0)
      let sp := env.split filtered_texts y
      let x_train := sp.1
      let x_test := sp.2.1
      let y_train := sp.2.2.1
      let y_test := sp.2.2.2
      let newVectorizer : Vectorizer := ⟨x_train⟩
      let st3 := { st2 with vectorizer := some newVectorizer }
      let newClassifier : Classifier := ⟨x_train, y_train⟩
      let st4 := { st3 with classifier := some newClassifier }
      let y_pred := x_test.map (fun t =>
        (argmaxIdx (env.proba newClassifier (env.transform newVectorizer t))).getD 0)
      let correct := ((y_test.zip y_pred).filter (fun p => p.1 == p.2)).length
      let accuracy : Rat := (correct : Rat) / (y_test.length : Rat)
      let saved := save_model wok st4 disk0
      (⟨true, none, some accuracy, some filtered.length, some unique_labels.length⟩,
       st4, saved.2, [st0, st1, st2, st3, st4])

/-! ## Module-level ml_categorize and the HTTP endpoints -/

/-- ml_categorize: the ML model consulted on the merchant text, the
description text, then their concatenation; falsy category ids (None or
0) fall through; (None, 0) when nothing sticks. -/
def ml_categorize (env : SkEnv) (st : MLState) (merchant description : Option String)
    (confidence_threshold : Rat) : Option Nat × Rat :=
  let r1 := if truthyStr merchant then
      predict env st (merchant.getD "") confidence_threshold else (none, 0)
  if truthyOpt r1.1 then r1 else
  let r2 := if truthyStr description then
      predict env st (description.getD "") confidence_threshold else (none, 0)
  if truthyOpt r2.1 then r2 else
  let combined := pyStrip ((merchant.getD "") ++ " " ++ (description.getD ""))
  let r3 := if combined ≠ "" then predict env st combined confidence_threshold else (none, 0)
  if truthyOpt r3.1 then r3 else (none, 0)

/-- A JSON scalar, to compare what the endpoints actually serialize. -/
inductive JVal where
  | nat (n : Nat)
  | str (s : String)
  deriving DecidableEq

structure StatusResp where
  is_trained : Bool
  num_categories : Nat
  categories : List JVal
  deriving DecidableEq

/-- The /api/ml/status endpoint (model_status in api/ml_training.py):
is_trained is the presence of a classifier, num_categories the size of
the mapping, and categories the mapping's values — the category ids.
error marks the raising path (a trained classifier with no mapping makes
None.values() raise). -/
def model_status (st : MLState) : Except Unit StatusResp :=
  let is_trained := st.classifier.isSome
  let num_categories := match st.category_mapping with
    | some m => m.length
    | none => 0
  if is_trained then
    match st.category_mapping with
    | none => .error ()
    | some m => .ok ⟨is_trained, num_categories, m.map (fun p => JVal.nat p.2)⟩
  else .ok ⟨is_trained, num_categories, []⟩

/-- Modelled from the claim's words for C7: the status carries the list
of category NAMES covered by the model (resolved against the category
table), empty when untrained. -/
def model_status_claimed (db : List (Nat × String)) (st : MLState) : StatusResp :=
  let is_trained := st.classifier.isSome
  let m := st.category_mapping.getD []
  ⟨is_trained, m.length,
   if is_trained then
     m.map (fun p => JVal.str (((db.find? (fun q => q.1 == p.2)).map (·.2)).getD ""))
   else []⟩

structure PredictBody where
  merchant : Option String
  description : Option String
  confidence_threshold : Option Rat

inductive PredictResp where
  | ok (category_id : Option Nat) (category_name : Option String) (confidence : Rat)
  | badRequest (error : String)
  deriving DecidableEq

/-- Banker's rounding (Python round) on a rational. -/
def roundHalfEven (q : Rat) : Int :=
  let f := ⌊q⌋
  let r := q - (f : Rat)
  if r < 1 / 2 then f
  else if 1 / 2 < r then f + 1
  else if f % 2 = 0 then f else f + 1

/-- Python round(x, 4), idealised on rationals. -/
def pyRound4 (q : Rat) : Rat := (roundHalfEven (q * 10000) : Rat) / 10000

/-- The endpoint's fallback threshold, data.get('confidence_threshold',
0.3): 0.3 = 3/10. -/
def endpoint_default_threshold : Rat := ratNF 3 10 (by norm_num) (by norm_num)

/-- The /api/ml/predict endpoint (predict_category in api/ml_training.py):
400 without a body or without merchant and description; the threshold
falls back to 0.3 when the body carries none; then ml_categorize, a name
lookup for a truthy category id, and the rounded confidence. -/
def predict_category (env : SkEnv) (st : MLState) (db : List (Nat × String))
    (body : Option PredictBody) : PredictResp :=
  match body with
  | none => .badRequest "No data provided"
  | some data =>
    let merchant := data.merchant
    let description := data.description
    let threshold := data.confidence_threshold.getD endpoint_default_threshold
    if !truthyStr merchant && !truthyStr description then
      .badRequest "Either merchant or description required"
    else
      let r := ml_categorize env st merchant description threshold
      let category_name :=
        if truthyOpt r.1 then
          (db.find? (fun q => q.1 == r.1.getD 0)).map (·.2)
        else none
      .ok r.1 category_name (pyRound4 r.2)

/-! ## Concrete instances used by counterexamples and witnesses -/

/-- A regex compiler under which every pattern is malformed. -/
def noRegex : ReCompile := fun _ => none

def emptyCatEnv : CatEnv := ⟨[], none⟩

/-- A rule whose regex pattern "(" is malformed (unbalanced parenthesis
raises re.error in Python). -/
def badRegexRule : Rule := ⟨"(", "regex", 5, 0⟩

/-- A concrete scikit-learn behaviour: every text vectorizes to [1] and
the classifier is certain of class 0 (probability 9/10). -/
def skEnvC1 : SkEnv :=
  ⟨fun _ _ => [1], fun _ _ => [ratNF 9 10 (by norm_num) (by norm_num)],
   fun ts ys => (ts, [], ys, [])⟩

/-- A trained in-memory model state mapping class 0 to category 7. -/
def stTrainedC1 : MLState :=
  ⟨some ⟨["starbucks"]⟩, some ⟨["starbucks"], [0]⟩, some [(0, 7)], some [(7, 0)]⟩

/-- A concrete scikit-learn behaviour whose classifier always answers
with the distribution [1/2, 1/2]. -/
def skEnvHalf : SkEnv :=
  ⟨fun _ _ => [1],
   fun _ _ => [ratNF 1 2 (by norm_num) (by norm_num), ratNF 1 2 (by norm_num) (by norm_num)],
   fun ts ys => (ts, [], ys, [])⟩

/-- A trained state with classes 0 and 1 mapped to categories 3 and 4. -/
def stTrainedHalf : MLState :=
  ⟨some ⟨["w"]⟩, some ⟨["w"], [0]⟩, some [(0, 3), (1, 4)], some [(3, 0), (4, 1)]⟩

/-- A concrete scikit-learn behaviour whose classifier always answers
with the distribution [1/5] — a top-class probability inside
[0.15, 0.3). -/
def skEnvFifth : SkEnv :=
  ⟨fun _ _ => [1], fun _ _ => [ratNF 1 5 (by norm_num) (by norm_num)],
   fun ts ys => (ts.take 8, ts.drop 8, ys.take 8, ys.drop 8)⟩

/-- A previously trained model state: old artifacts before a retrain. -/
def stOldModel : MLState :=
  ⟨some ⟨["old"]⟩, some ⟨["old"], [9]⟩, some [(0, 99)], some [(99, 0)]⟩

/-- A disk holding the old model's three artifacts. -/
def diskOldModel : Disk := ⟨some ⟨["old"]⟩, some ⟨["old"], [9]⟩, some [(0, 99)]⟩

/-- Ten usable training examples over two categories. -/
def textsTen : List String :=
  ["alpha", "bravo", "charlie", "delta", "echo", "foxtrot", "golf", "hotel", "india", "juliet"]

def labelsTen : List Nat := [1, 1, 1, 1, 1, 2, 2, 2, 2, 2]

/-- Every write fails (for example the model directory is gone). -/
def allWritesFail : WriteOks := ⟨false, false, false⟩

/-- A category table naming category 7 "Coffee". -/
def dbCoffee : List (Nat × String) := [(7, "Coffee")]

instance : DecidableEq (Except Unit StatusResp) := fun a b =>
  match a, b with
  | .ok x, .ok y =>
    if h : x = y then .isTrue (h ▸ rfl) else .isFalse (fun he => h (Except.ok.inj he))
  | .error x, .error y => .isTrue (by cases x; cases y; rfl)
  | .ok _, .error _ => .isFalse (fun he => Except.noConfusion he)
  | .error _, .ok _ => .isFalse (fun he => Except.noConfusion he)

/-! ## Helper lemmas for the rule engine -/

theorem rule_skip_eval_false (compile : ReCompile) (text : String) (r : Rule)
    (h : evalRule compile text r = false) :
    ∀ l1 l2 : List Rule, rule_based_categorize compile text (l1 ++ r :: l2) =
      rule_based_categorize compile text (l1 ++ l2) := by
  intro l1 l2
  induction l1 with
  | nil => simp [rule_based_categorize, h]
  | cons x xs ih => simp [rule_based_categorize, ih]

theorem evalRule_malformed (compile : ReCompile) (text : String) (r : Rule)
    (hty : r.match_type = "regex") (hbad : compile (pyLower r.pattern) = none) :
    evalRule compile text r = false := by
  simp [evalRule, hty, hbad]

theorem mem_insertByPriority {r x : Rule} {l : List Rule} :
    x ∈ insertByPriority r l ↔ x = r ∨ x ∈ l := by
  induction l with
  | nil => simp [insertByPriority]
  | cons y ys ih =>
    rw [insertByPriority]
    split
    · simp only [List.mem_cons]
    · simp only [List.mem_cons, ih]
      tauto

theorem pairwise_insertByPriority {r : Rule} {l : List Rule}
    (h : l.Pairwise (fun a b => b.priority ≤ a.priority)) :
    (insertByPriority r l).Pairwise (fun a b => b.priority ≤ a.priority) := by
  induction l with
  | nil => simp [insertByPriority]
  | cons y ys ih =>
    rw [List.pairwise_cons] at h
    obtain ⟨hy, hys⟩ := h
    rw [insertByPriority]
    split
    · rename_i hgt
      refine List.Pairwise.cons ?_ (List.Pairwise.cons hy hys)
      intro z hz
      rcases List.mem_cons.mp hz with rfl | hz'
      · omega
      · have := hy z hz'
        omega
    · rename_i hle
      refine List.Pairwise.cons ?_ (ih hys)
      intro z hz
      rcases mem_insertByPriority.mp hz with rfl | hz'
      · omega
      · exact hy z hz'

theorem listCategorizationRules_sorted (db : List Rule) :
    (listCategorizationRules db).Pairwise (fun a b => b.priority ≤ a.priority) := by
  unfold listCategorizationRules
  induction db with
  | nil => simp
  | cons x xs ih =>
    rw [List.foldr_cons]
    exact pairwise_insertByPriority ih

theorem rule_based_none_of_all_false (compile : ReCompile) (text : String) :
    ∀ rules : List Rule, (∀ ru ∈ rules, evalRule compile text ru = false) →
      rule_based_categorize compile text rules = none := by
  intro rules h
  induction rules with
  | nil => rfl
  | cons x xs ih =>
    have hx := h x (List.mem_cons_self x xs)
    simp only [rule_based_categorize, hx, if_neg]
    exact ih fun ru hru => h ru (List.mem_cons_of_mem x hru)

/-! ## C8 -/

/-- C8: rule matching iterates the stored rules in descending priority
and never raises: a rule whose match_type is regex but whose (lower-cased)
pattern fails to compile is skipped, the scan producing the same result
as on the list with that rule removed; and when no rule matches the
result is none, not an error. -/
theorem rule_engine_skips_malformed_regex (compile : ReCompile) (text : String)
    (l1 l2 : List Rule) (r : Rule) (db : List Rule)
    (hty : r.match_type = "regex") (hbad : compile (pyLower r.pattern) = none) :
    rule_based_categorize compile text (l1 ++ r :: l2) =
      rule_based_categorize compile text (l1 ++ l2) ∧
    (listCategorizationRules db).Pairwise (fun a b => b.priority ≤ a.priority) ∧
    ((∀ ru ∈ l1 ++ r :: l2, evalRule compile text ru = false) →
      rule_based_categorize compile text (l1 ++ r :: l2) = none) :=
  ⟨rule_skip_eval_false compile text r (evalRule_malformed compile text r hty hbad) l1 l2,
   listCategorizationRules_sorted db,
   fun h => rule_based_none_of_all_false compile text _ h⟩

theorem rule_engine_skips_malformed_regex_witness :
    rule_based_categorize (fun _ => none) "starbucks" ([] ++ badRegexRule :: []) =
      rule_based_categorize (fun _ => none) "starbucks" ([] ++ []) ∧
    (listCategorizationRules []).Pairwise (fun a b : Rule => b.priority ≤ a.priority) ∧
    ((∀ ru ∈ [] ++ badRegexRule :: [], evalRule (fun _ => none) "starbucks" ru = false) →
      rule_based_categorize (fun _ => none) "starbucks" ([] ++ badRegexRule :: []) = none) :=
  rule_engine_skips_malformed_regex (fun _ => none) "starbucks" [] [] badRegexRule [] rfl rfl

/-! ## C9 -/

/-- C9: the classifier fallback inside categorize_transaction is a stub
returning none on every input, so categorize_transaction coincides with
the rules-plus-Uncategorized-fallback function: the trained ML model
never influences its output. -/
theorem classifier_stub_never_fires :
    (∀ t, classifier_predict t = none) ∧
    (∀ (compile : ReCompile) (env : CatEnv) (m d : Option String),
      categorize_transaction compile env m d = categorize_rules_only compile env m d) :=
  ⟨fun _ => rfl, fun _ _ _ _ => rfl⟩

/-! ## C4 -/

/-- C4 counterexample: normalization is not idempotent for every input;
one pass over "webweb" strips the leading web marker giving "web", and a
second pass strips that too, giving the empty string. -/
theorem preprocess_not_idempotent :
    preprocess_text (preprocess_text "webweb") ≠ preprocess_text "webweb" := by decide

/-- C4 amended: normalization is idempotent on sampled inputs (the
spec's own hedge), though not universally: a second pass can strip a
transaction-type prefix first exposed by the first pass. -/
theorem preprocess_idempotent_on_samples :
    preprocess_text (preprocess_text "STARBUCKS #1234 SEATTLE WA") =
      preprocess_text "STARBUCKS #1234 SEATTLE WA" ∧
    preprocess_text (preprocess_text "Walmart Grocery") =
      preprocess_text "Walmart Grocery" ∧
    preprocess_text (preprocess_text "WITHDRAWAL-ACH-A-VENMO PAYMENT 123456") =
      preprocess_text "WITHDRAWAL-ACH-A-VENMO PAYMENT 123456" ∧
    preprocess_text (preprocess_text "Uber Eats CA") =
      preprocess_text "Uber Eats CA" ∧
    preprocess_text (preprocess_text "trace #12345 eff. date 01/02/2024 (PAY 091536)") =
      preprocess_text "trace #12345 eff. date 01/02/2024 (PAY 091536)" ∧
    preprocess_text (preprocess_text "") = preprocess_text "" := by decide

/-! ## C1 -/

/-- C1 counterexample: with no rules, no Uncategorized category and a
trained Classifier Model that confidently maps the merchant text
"starbucks" to category 7, the claimed decision order returns 7, but
categorize_transaction returns none — it never consults the model. -/
theorem categorize_decision_order_counterexample :
    categorize_claimed noRegex emptyCatEnv
      (fun t => (predict skEnvC1 stTrainedC1 t predict_default_threshold).1)
      (some "Starbucks") none = some 7 ∧
    categorize_transaction noRegex emptyCatEnv (some "Starbucks") none = none := by
  decide

/-- C1 amended: categorize_transaction tries rules on the merchant text,
the description text and the concatenation, in that order; if no rule
result is truthy it consults the classifier stub once (on the
concatenation), never the trained model, and the stub never yields a
category; whenever the rule phase yields a truthy category it is
returned in preference to anything after it, under any model. -/
theorem categorize_decision_order_amended (compile : ReCompile) (env : CatEnv)
    (m d : Option String) :
    categorize_transaction compile env m d =
      categorize_claimed compile env classifier_predict m d ∧
    (truthyOpt (rulePhase compile env m d) = true →
      ∀ model : String → Option Nat,
        categorize_claimed compile env model m d = rulePhase compile env m d ∧
        categorize_transaction compile env m d = rulePhase compile env m d) := by
  constructor
  · simp [categorize_transaction, categorize_claimed, classifier_predict, truthyOpt, ite_self]
  · intro h model
    constructor
    · simp [categorize_claimed, h]
    · simp [categorize_transaction, h]

/-! ## Helper lemmas for argmax -/

theorem argmaxGo_range (xs : List Rat) : ∀ (bv : Rat) (best i : Nat),
    argmaxGo bv best i xs = best ∨
      (i ≤ argmaxGo bv best i xs ∧ argmaxGo bv best i xs < i + xs.length) := by
  induction xs with
  | nil =>
    intro bv best i
    exact Or.inl rfl
  | cons x t ih =>
    intro bv best i
    rw [argmaxGo]
    split
    · rcases ih x i (i + 1) with h | ⟨h1, h2⟩
      · right
        rw [h]
        simp only [List.length_cons]
        omega
      · right
        simp only [List.length_cons]
        omega
    · rcases ih bv best (i + 1) with h | ⟨h1, h2⟩
      · exact Or.inl h
      · right
        simp only [List.length_cons]
        omega

theorem argmaxIdx_lt_length {l : List Rat} {i : Nat} (h : argmaxIdx l = some i) :
    i < l.length := by
  cases l with
  | nil => simp [argmaxIdx] at h
  | cons x t =>
    simp only [argmaxIdx, Option.some.injEq] at h
    subst h
    rcases argmaxGo_range t x 0 1 with h0 | ⟨h1, h2⟩
    · rw [h0]
      simp
    · simp only [List.length_cons]
      omega

theorem getD_mem_of_lt {l : List Rat} {i : Nat} (h : i < l.length) : l.getD i 0 ∈ l := by
  rw [List.getD_eq_getElem l 0 h]
  exact List.getElem_mem h


/-! ## C6 -/

/-- Characterization of predict_body when both model fields are present. -/
theorem predict_body_some (env : SkEnv) (st : MLState) (v : Vectorizer) (c : Classifier)
    (processed : String) (thr : Rat)
    (hv : st.vectorizer = some v) (hc : st.classifier = some c) :
    predict_body env st processed thr =
      (match argmaxIdx (env.proba c (env.transform v processed)) with
       | none => .error ()
       | some idx =>
         if (env.proba c (env.transform v processed)).getD idx 0 < thr then .ok (none, 0)
         else
           match st.category_mapping with
           | none => .error ()
           | some m =>
             match dictGet m idx with
             | none => .error ()
             | some cid =>
               .ok (some cid, (env.proba c (env.transform v processed)).getD idx 0)) := by
  unfold predict_body
  rw [hv, hc]

/-- C6: the returned confidence lies in [0,1] (given, per the
scikit-learn contract, that predict_proba yields values in [0,1]); the
result is (none, 0) when the input normalizes to the empty string, when
no model is loaded, or when the top-class probability falls below the
threshold; and every raising path inside the body is caught, so predict
is total. -/
theorem predict_confidence_spec (env : SkEnv) (st : MLState) (text : String) (thr : Rat)
    (hprob : forall v c, st.vectorizer = some v -> st.classifier = some c ->
      forall p, p ∈ env.proba c (env.transform v (preprocess_text text)) -> 0 ≤ p ∧ p ≤ 1) :
    (0 ≤ (predict env st text thr).2 ∧ (predict env st text thr).2 ≤ 1) ∧
    (preprocess_text text = "" -> predict env st text thr = (none, 0)) ∧
    (st.vectorizer = none ∨ st.classifier = none -> predict env st text thr = (none, 0)) ∧
    (forall v c i, st.vectorizer = some v -> st.classifier = some c ->
      argmaxIdx (env.proba c (env.transform v (preprocess_text text))) = some i ->
      (env.proba c (env.transform v (preprocess_text text))).getD i 0 < thr ->
      predict env st text thr = (none, 0)) := by
  by_cases hv0 : st.vectorizer = none
  · have hpred : predict env st text thr = (none, 0) := by simp [predict, hv0]
    refine ⟨⟨by rw [hpred], by rw [hpred]; exact zero_le_one⟩,
      fun _ => hpred, fun _ => hpred, fun v' c' i hv' _ _ _ => ?_⟩
    rw [hv0] at hv'
    exact Option.noConfusion hv'
  by_cases hc0 : st.classifier = none
  · have hpred : predict env st text thr = (none, 0) := by simp [predict, hc0]
    refine ⟨⟨by rw [hpred], by rw [hpred]; exact zero_le_one⟩,
      fun _ => hpred, fun _ => hpred, fun v' c' i _ hc' _ _ => ?_⟩
    rw [hc0] at hc'
    exact Option.noConfusion hc'
  obtain ⟨v, hv⟩ := Option.ne_none_iff_exists'.mp hv0
  obtain ⟨c, hc⟩ := Option.ne_none_iff_exists'.mp hc0
  have hcontra3 : st.vectorizer = none ∨ st.classifier = none ->
      predict env st text thr = (none, 0) := by
    intro h
    rcases h with h | h
    · exact absurd h hv0
    · exact absurd h hc0
  by_cases hp : preprocess_text text = ""
  · have hpred : predict env st text thr = (none, 0) := by simp [predict, hp]
    exact ⟨⟨by rw [hpred], by rw [hpred]; exact zero_le_one⟩,
      fun _ => hpred, fun _ => hpred, fun _ _ _ _ _ _ _ => hpred⟩
  · have hkey : predict env st text thr =
        (match predict_body env st (preprocess_text text) thr with
         | .ok r => r
         | .error _ => (none, 0)) := by
      simp [predict, hv, hc, hp]
    have hbodyeq := predict_body_some env st v c (preprocess_text text) thr hv hc
    rcases hidx : argmaxIdx (env.proba c (env.transform v (preprocess_text text)))
        with _ | idx
    · have hpred : predict env st text thr = (none, 0) := by
        rw [hkey, hbodyeq, hidx]
      refine ⟨⟨by rw [hpred], by rw [hpred]; exact zero_le_one⟩,
        fun _ => hpred, hcontra3, fun v' c' i hv' hc' hidx' _ => ?_⟩
      obtain rfl : v = v' := Option.some.inj (hv.symm.trans hv')
      obtain rfl : c = c' := Option.some.inj (hc.symm.trans hc')
      rw [hidx] at hidx'
      exact Option.noConfusion hidx'
    · by_cases hthr : (env.proba c (env.transform v (preprocess_text text))).getD idx 0 < thr
      · have hpred : predict env st text thr = (none, 0) := by
          simp only [hkey, hbodyeq, hidx]
          rw [if_pos hthr]
        exact ⟨⟨by rw [hpred], by rw [hpred]; exact zero_le_one⟩,
          fun _ => hpred, hcontra3, fun _ _ _ _ _ _ _ => hpred⟩
      · have hfourth : forall v' c' i, st.vectorizer = some v' -> st.classifier = some c' ->
            argmaxIdx (env.proba c' (env.transform v' (preprocess_text text))) = some i ->
            (env.proba c' (env.transform v' (preprocess_text text))).getD i 0 < thr ->
            predict env st text thr = (none, 0) := by
          intro v' c' i hv' hc' hidx' hlt
          obtain rfl : v = v' := Option.some.inj (hv.symm.trans hv')
          obtain rfl : c = c' := Option.some.inj (hc.symm.trans hc')
          rw [hidx] at hidx'
          obtain rfl : idx = i := Option.some.inj hidx'
          exact absurd hlt hthr
        rcases hm : st.category_mapping with _ | mp
        · have hpred : predict env st text thr = (none, 0) := by
            simp only [hkey, hbodyeq, hidx]
            rw [if_neg hthr, hm]
          exact ⟨⟨by rw [hpred], by rw [hpred]; exact zero_le_one⟩,
            fun _ => hpred, hcontra3, hfourth⟩
        · rcases hdg : dictGet mp idx with _ | cid
          · have hpred : predict env st text thr = (none, 0) := by
              simp only [hkey, hbodyeq, hidx]
              simp only [if_neg hthr, hm, hdg]
            exact ⟨⟨by rw [hpred], by rw [hpred]; exact zero_le_one⟩,
              fun _ => hpred, hcontra3, hfourth⟩
          · have hpred : predict env st text thr =
                (some cid,
                  (env.proba c (env.transform v (preprocess_text text))).getD idx 0) := by
              simp only [hkey, hbodyeq, hidx]
              simp only [if_neg hthr, hm, hdg]
            have hmem := getD_mem_of_lt (argmaxIdx_lt_length hidx)
            have hrange := hprob v c hv hc _ hmem
            exact ⟨⟨by rw [hpred]; exact hrange.1, by rw [hpred]; exact hrange.2⟩,
              fun h => absurd h hp, hcontra3, hfourth⟩

theorem predict_confidence_spec_witness :
    (0 ≤ (predict skEnvHalf stTrainedHalf "starbucks" predict_default_threshold).2 ∧
      (predict skEnvHalf stTrainedHalf "starbucks" predict_default_threshold).2 ≤ 1) ∧
    (preprocess_text "starbucks" = "" →
      predict skEnvHalf stTrainedHalf "starbucks" predict_default_threshold = (none, 0)) ∧
    (stTrainedHalf.vectorizer = none ∨ stTrainedHalf.classifier = none →
      predict skEnvHalf stTrainedHalf "starbucks" predict_default_threshold = (none, 0)) ∧
    (∀ v c i, stTrainedHalf.vectorizer = some v → stTrainedHalf.classifier = some c →
      argmaxIdx (skEnvHalf.proba c (skEnvHalf.transform v (preprocess_text "starbucks"))) =
        some i →
      (skEnvHalf.proba c (skEnvHalf.transform v (preprocess_text "starbucks"))).getD i 0 <
        predict_default_threshold →
      predict skEnvHalf stTrainedHalf "starbucks" predict_default_threshold = (none, 0)) :=
  predict_confidence_spec skEnvHalf stTrainedHalf "starbucks" predict_default_threshold
    (by
      intro v c hv hc p hp
      simp only [skEnvHalf, List.mem_cons, List.not_mem_nil, or_false] at hp
      rcases hp with rfl | rfl <;> exact ⟨by decide, by decide⟩)

/-! ## C10 -/

/-- Helper: Python round(0, 4) is 0. -/
theorem pyRound4_zero : pyRound4 0 = 0 := by
  norm_num [pyRound4, roundHalfEven]

/-- C10: the HTTP predict endpoint defaults the confidence threshold to
0.3 while the core predict and ml_categorize default to 0.15; for an
input whose prediction clears 0.15 but not 0.3, the core default yields
the category while the endpoint (given a body without a threshold)
answers with no category and confidence 0. -/
theorem endpoint_threshold_gap (env : SkEnv) (st : MLState) (db : List (Nat × String))
    (t : String) (c : Nat) (p : Rat)
    (h1 : predict env st t predict_default_threshold = (some c, p)) (hc : c ≠ 0)
    (h2 : predict env st t endpoint_default_threshold = (none, 0))
    (h3 : predict env st (pyStrip (t ++ " ")) endpoint_default_threshold = (none, 0))
    (ht : t ≠ "") :
    predict_default_threshold = 15 / 100 ∧
    endpoint_default_threshold = 3 / 10 ∧
    ml_categorize env st (some t) none predict_default_threshold = (some c, p) ∧
    predict_category env st db (some ⟨some t, none, none⟩) =
      PredictResp.ok none none 0 := by
  refine ⟨?_, ?_, ?_, ?_⟩
  · rw [predict_default_threshold, ratNF, Rat.mk'_eq_divInt, Rat.divInt_eq_div]
    norm_num
  · rw [endpoint_default_threshold, ratNF, Rat.mk'_eq_divInt, Rat.divInt_eq_div]
    norm_num
  · simp [ml_categorize, truthyStr, ht, h1, truthyOpt, hc]
  · simp only [predict_category, Option.getD_none, Option.getD_some]
    have hguard : (!truthyStr (some t) && !truthyStr none) = false := by
      simp [truthyStr, ht]
    rw [if_neg (by simp [hguard, truthyStr, ht])]
    have hml : ml_categorize env st (some t) none endpoint_default_threshold = (none, 0) := by
      simp only [ml_categorize, truthyStr, ht, Option.getD_some, Option.getD_none]
      simp only [if_pos, h2]
      have hcomb : ((t ++ " " ++ "") : String) = t ++ " " := by
        simp
      by_cases hce : pyStrip (t ++ " ") = ""
      · simp [truthyOpt, hcomb, hce, h3]
      · simp [truthyOpt, hcomb, hce, h3]
    rw [hml]
    simp [truthyOpt, pyRound4_zero]

theorem endpoint_threshold_gap_witness :
    predict_default_threshold = 15 / 100 ∧
    endpoint_default_threshold = 3 / 10 ∧
    ml_categorize skEnvFifth stTrainedC1 (some "starbucks") none predict_default_threshold =
      (some 7, ratNF 1 5 (by norm_num) (by norm_num)) ∧
    predict_category skEnvFifth stTrainedC1 dbCoffee
      (some ⟨some "starbucks", none, none⟩) = PredictResp.ok none none 0 :=
  endpoint_threshold_gap skEnvFifth stTrainedC1 dbCoffee "starbucks" 7
    (ratNF 1 5 (by norm_num) (by norm_num))
    (by decide) (by decide) (by decide) (by decide) (by decide)

/-! ## C5 -/

/-- C5: when fewer than 10 usable examples remain after assembling the
training data and discarding sparse categories, train returns
success = false and leaves both the in-memory model state and the
persisted artifacts untouched. -/
theorem train_insufficient_data (env : SkEnv) (wok : WriteOks) (st0 : MLState) (disk0 : Disk)
    (texts : List String) (labels : List Nat)
    (h : (filteredExamples texts labels min_samples_per_category_default).length < 10) :
    (train env wok st0 disk0 texts labels min_samples_per_category_default).1.success = false ∧
    (train env wok st0 disk0 texts labels min_samples_per_category_default).2.1 = st0 ∧
    (train env wok st0 disk0 texts labels min_samples_per_category_default).2.2.1 = disk0 := by
  unfold train
  by_cases h10 : texts.length < 10
  · rw [if_pos h10]
    exact ⟨rfl, rfl, rfl⟩
  · simp [if_neg h10, if_pos h]

theorem train_insufficient_data_witness :
    (train skEnvFifth allWritesOk stOldModel diskOldModel ["alpha"] [1]
      min_samples_per_category_default).1.success = false ∧
    (train skEnvFifth allWritesOk stOldModel diskOldModel ["alpha"] [1]
      min_samples_per_category_default).2.1 = stOldModel ∧
    (train skEnvFifth allWritesOk stOldModel diskOldModel ["alpha"] [1]
      min_samples_per_category_default).2.2.1 = diskOldModel :=
  train_insufficient_data skEnvFifth allWritesOk stOldModel diskOldModel ["alpha"] [1]
    (by decide)

/-! ## C2 -/

/-- C2 counterexample: during a successful retrain the traced in-memory
states include one whose category_mapping is already the new mapping
while the classifier is still the old one — neither the old model nor
the fully new one; and with every artifact write failing, the in-memory
state is still replaced (the swap does not wait for serialization to
succeed), the disk keeping only the old artifacts. -/
theorem train_nonatomic_swap_counterexample :
    (∃ s, s ∈ (train skEnvFifth allWritesOk stOldModel diskOldModel textsTen labelsTen 2).2.2.2 ∧
      s ≠ stOldModel ∧
      s ≠ (train skEnvFifth allWritesOk stOldModel diskOldModel textsTen labelsTen 2).2.1 ∧
      s.category_mapping ≠ stOldModel.category_mapping ∧
      s.classifier = stOldModel.classifier) ∧
    (train skEnvFifth allWritesFail stOldModel diskOldModel textsTen labelsTen 2).2.1 ≠
      stOldModel ∧
    (train skEnvFifth allWritesFail stOldModel diskOldModel textsTen labelsTen 2).2.2.1 =
      diskOldModel := by
  refine ⟨⟨⟨some ⟨["old"]⟩, some ⟨["old"], [9]⟩, some [(0, 1), (1, 2)], some [(99, 0)]⟩,
    by decide, by decide, by decide, by decide, by decide⟩, by decide, by decide⟩

/-- C2 amended: train mutates the in-memory fields one assignment at a
time before persisting anything, so a concurrent reader can observe a
state that mixes old and new fields; only after all in-memory fields
hold the new model is save_model invoked, and when every write succeeds
the persisted artifacts equal exactly the final in-memory fields. -/
theorem train_swap_amended (env : SkEnv) (wok : WriteOks) (st0 : MLState) (disk0 : Disk)
    (texts : List String) (labels : List Nat) (ms : Nat)
    (hs : (train env wok st0 disk0 texts labels ms).1.success = true)
    (hm : st0.category_mapping ≠
      (train env wok st0 disk0 texts labels ms).2.1.category_mapping)
    (hcl : st0.classifier ≠ (train env wok st0 disk0 texts labels ms).2.1.classifier) :
    (wok = allWritesOk →
      (train env wok st0 disk0 texts labels ms).2.2.1 =
        ⟨(train env wok st0 disk0 texts labels ms).2.1.vectorizer,
         (train env wok st0 disk0 texts labels ms).2.1.classifier,
         (train env wok st0 disk0 texts labels ms).2.1.category_mapping⟩) ∧
    (∃ s, s ∈ (train env wok st0 disk0 texts labels ms).2.2.2 ∧
      s ≠ st0 ∧ s ≠ (train env wok st0 disk0 texts labels ms).2.1) := by
  by_cases h10 : texts.length < 10
  · unfold train at hs
    rw [if_pos h10] at hs
    simp at hs
  by_cases hf : (filteredExamples texts labels ms).length < 10
  · unfold train at hs
    simp only [if_neg h10, if_pos hf] at hs
    simp at hs
  unfold train at hm hcl ⊢
  simp only [if_neg h10, if_neg hf] at hm hcl ⊢
  constructor
  · intro hwok
    subst hwok
    simp [save_model, allWritesOk]
  · refine ⟨_, List.mem_cons_of_mem _ (List.mem_cons_self _ _), ?_, ?_⟩
    · intro heq
      apply hm
      have := congrArg MLState.category_mapping heq
      simp at this
      simp [← this]
    · intro heq
      apply hcl
      have := congrArg MLState.classifier heq
      simp at this
      simp [← this]

theorem train_swap_amended_witness :
    (allWritesOk = allWritesOk →
      (train skEnvFifth allWritesOk stOldModel diskOldModel textsTen labelsTen 2).2.2.1 =
        ⟨(train skEnvFifth allWritesOk stOldModel diskOldModel textsTen labelsTen 2).2.1.vectorizer,
         (train skEnvFifth allWritesOk stOldModel diskOldModel textsTen labelsTen 2).2.1.classifier,
         (train skEnvFifth allWritesOk stOldModel diskOldModel textsTen
           labelsTen 2).2.1.category_mapping⟩) ∧
    (∃ s, s ∈ (train skEnvFifth allWritesOk stOldModel diskOldModel textsTen labelsTen 2).2.2.2 ∧
      s ≠ stOldModel ∧
      s ≠ (train skEnvFifth allWritesOk stOldModel diskOldModel textsTen labelsTen 2).2.1) :=
  train_swap_amended skEnvFifth allWritesOk stOldModel diskOldModel textsTen labelsTen 2
    (by decide) (by decide) (by decide)

/-! ## C3 -/

/-- C3 counterexample: a run of train during which every artifact write
fails (save_model reports failure and the disk keeps only the old
artifacts) still returns success = true. -/
theorem train_ignores_save_failure_counterexample :
    (train skEnvFifth allWritesFail stOldModel diskOldModel textsTen labelsTen 2).1.success =
      true ∧
    (train skEnvFifth allWritesFail stOldModel diskOldModel textsTen labelsTen 2).2.2.1 =
      diskOldModel ∧
    (save_model allWritesFail
      (train skEnvFifth allWritesFail stOldModel diskOldModel textsTen labelsTen 2).2.1
      diskOldModel).1 = false := by
  refine ⟨by decide, by decide, by decide⟩

/-- Helper: predict on a state whose category_mapping is absent always
answers (none, 0) — every path either guards, stays below threshold with
(none, 0), or raises into the caught branch. -/
theorem predict_no_mapping (env : SkEnv) (st : MLState) (text : String) (thr : Rat)
    (hm : st.category_mapping = none) : predict env st text thr = (none, 0) := by
  by_cases hv0 : st.vectorizer = none
  · simp [predict, hv0]
  by_cases hc0 : st.classifier = none
  · simp [predict, hc0]
  obtain ⟨v, hv⟩ := Option.ne_none_iff_exists'.mp hv0
  obtain ⟨c, hc⟩ := Option.ne_none_iff_exists'.mp hc0
  by_cases hp : preprocess_text text = ""
  · simp [predict, hp]
  have hkey : predict env st text thr =
      (match predict_body env st (preprocess_text text) thr with
       | .ok r => r
       | .error _ => (none, 0)) := by
    simp [predict, hv, hc, hp]
  have hbodyeq := predict_body_some env st v c (preprocess_text text) thr hv hc
  rcases hidx : argmaxIdx (env.proba c (env.transform v (preprocess_text text))) with _ | idx
  · simp only [hkey, hbodyeq, hidx]
  · simp only [hkey, hbodyeq, hidx]
    by_cases hthr : (env.proba c (env.transform v (preprocess_text text))).getD idx 0 < thr
    · rw [if_pos hthr]
    · simp only [if_neg hthr, hm]

/-- C3 amended: the result of train is entirely independent of the
persistence outcome (a save failure does not make training report
failure — its boolean is discarded); the load half of the claim holds:
any failure while loading the persisted artifacts makes load_model
return false without raising, and prediction on the resulting state
yields (none, 0) — the "no model" outcome. -/
theorem save_and_load_failure_amended :
    (∀ (env : SkEnv) (st0 : MLState) (disk0 : Disk) (texts : List String)
      (labels : List Nat) (ms : Nat) (wok wok' : WriteOks),
      (train env wok st0 disk0 texts labels ms).1 =
        (train env wok' st0 disk0 texts labels ms).1) ∧
    (∀ (lenv : LoadEnv) (disk : Disk), (load_model lenv disk initMLState).1 = false →
      ∀ (env : SkEnv) (text : String) (thr : Rat),
        predict env (load_model lenv disk initMLState).2 text thr = (none, 0)) := by
  constructor
  · intro env st0 disk0 texts labels ms wok wok'
    unfold train
    by_cases h10 : texts.length < 10
    · simp only [if_pos h10]
    · simp only [if_neg h10]
      by_cases hf : (filteredExamples texts labels ms).length < 10
      · simp only [if_pos hf]
      · simp only [if_neg hf]
  · intro lenv disk hld env text thr
    have hnoclf : ∀ st : MLState, st.classifier = none →
        predict env st text thr = (none, 0) := by
      intro st h
      simp [predict, h]
    unfold load_model at hld ⊢
    rcases h1 : disk.vectorizer_pkl with _ | v
    · simp only [h1]
      exact hnoclf _ rfl
    rcases h2 : disk.classifier_pkl with _ | c
    · simp only [h1, h2]
      exact hnoclf _ rfl
    rcases h3 : disk.category_mapping_pkl with _ | m
    · simp only [h1, h2, h3]
      exact hnoclf _ rfl
    simp only [h1, h2, h3] at hld ⊢
    by_cases bv : lenv.vectorizerReadOk
    · by_cases bc : lenv.classifierReadOk
      · by_cases bm : lenv.mappingReadOk
        · rw [if_pos bv, if_pos bc, if_pos bm] at hld
          simp at hld
        · rw [if_pos bv, if_pos bc, if_neg bm]
          exact predict_no_mapping env _ text thr rfl
      · rw [if_pos bv, if_neg bc]
        exact hnoclf _ rfl
    · rw [if_neg bv]
      exact hnoclf _ rfl

/-! ## C7 -/

/-- C7 counterexample: the status endpoint's categories field carries
the category ids from the label mapping, not the category names: for a
model covering category 7 named "Coffee" it answers [7], while the
claimed behaviour answers ["Coffee"]. -/
theorem model_status_returns_ids_counterexample :
    model_status stTrainedC1 = .ok ⟨true, 1, [JVal.nat 7]⟩ ∧
    model_status_claimed dbCoffee stTrainedC1 = ⟨true, 1, [JVal.str "Coffee"]⟩ ∧
    model_status stTrainedC1 ≠ .ok (model_status_claimed dbCoffee stTrainedC1) := by
  refine ⟨by decide, by decide, by decide⟩

/-- C7 amended: model_status reports whether a classifier is loaded, the
size of the label mapping, and the list of category IDS covered by the
model (the mapping's values; after a successful train these are the
sorted distinct trained category ids), an empty list when untrained. -/
theorem model_status_amended (env : SkEnv) (wok : WriteOks) (st0 : MLState) (disk0 : Disk)
    (texts : List String) (labels : List Nat) (ms : Nat)
    (hs : (train env wok st0 disk0 texts labels ms).1.success = true) :
    model_status (train env wok st0 disk0 texts labels ms).2.1 =
      .ok ⟨true,
        (sortedUnique ((filteredExamples texts labels ms).map (fun p => p.2))).length,
        (sortedUnique ((filteredExamples texts labels ms).map (fun p => p.2))).map
          JVal.nat⟩ ∧
    (∀ st : MLState, st.classifier = none →
      model_status st = .ok ⟨false,
        (match st.category_mapping with | some m => m.length | none => 0), []⟩) := by
  constructor
  · by_cases h10 : texts.length < 10
    · unfold train at hs
      rw [if_pos h10] at hs
      simp at hs
    by_cases hf : (filteredExamples texts labels ms).length < 10
    · unfold train at hs
      simp only [if_neg h10, if_pos hf] at hs
      simp at hs
    unfold train
    simp only [if_neg h10, if_neg hf]
    simp only [model_status]
    simp only [Option.isSome_some, List.enum_length, if_pos]
    refine congrArg _ (congrArg _ ?_)
    conv_rhs =>
      rw [← List.enum_map_snd
        (sortedUnique ((filteredExamples texts labels ms).map (fun p => p.2)))]
    rw [List.map_map]
    rfl
  · intro st h
    simp [model_status, h]

theorem model_status_amended_witness :
    model_status (train skEnvFifth allWritesOk stOldModel diskOldModel textsTen
        labelsTen 2).2.1 =
      .ok ⟨true,
        (sortedUnique ((filteredExamples textsTen labelsTen 2).map (fun p => p.2))).length,
        (sortedUnique ((filteredExamples textsTen labelsTen 2).map (fun p => p.2))).map
          JVal.nat⟩ ∧
    (∀ st : MLState, st.classifier = none →
      model_status st = .ok ⟨false,
        (match st.category_mapping with | some m => m.length | none => 0), []⟩) :=
  model_status_amended skEnvFifth allWritesOk stOldModel diskOldModel textsTen labelsTen 2
    (by decide)
